import Mathlib

/-!
Shallow embedding of the marketplace backend (`main.py`, `schemas.py`):
the cart manager (`get_cart`, `add_to_cart`, `remove_from_cart`), the
checkout engine (`checkout`), the product-listing query builder
(`list_products`) and identifier validation (`to_obj_id`).

The MongoDB store is embedded as an explicit state (`DB`): each collection
is a list of documents, `find_one` is `List.find?` (first match, insertion
order), `update_one` rewrites the first document matching the filter, and
`insert_one` / `create_document` append a document whose `_id` is drawn
from a fresh-id counter.  Python floats carrying money amounts are
embedded as `Rat`; Python's `round(x, 2)` (round-half-to-even) is
`round2`.
-/

namespace Marketplace

attribute [local semireducible] Rat.mul Rat.add Rat.sub Rat.inv

/-- Hexadecimal digit test, used for ObjectId validity. -/
def hexDigit (c : Char) : Bool :=
  c.isDigit || ('a' ≤ c && c ≤ 'f') || ('A' ≤ c && c ≤ 'F')

/-- Modelled from the bson library (external dependency of `to_obj_id` in
`main.py`): `ObjectId(id_str)` succeeds exactly when `id_str` is a
24-character hexadecimal string; otherwise it raises, which `to_obj_id`
turns into the 400 "Invalid id" error. -/
def isValidObjectId (s : String) : Bool :=
  s.length == 24 && s.data.all hexDigit

/-- Error outcomes of the embedded routes: `to_obj_id`'s 400 "Invalid id",
`remove_from_cart`'s 404 "Cart not found", `checkout`'s 400 "Cart is empty". -/
inductive ApiError where
  | invalidIdentifier
  | cartNotFound
  | emptyCart
deriving Repr, DecidableEq

/-- Decidable equality of `Except` results, so that concrete runs of the
embedded routes can be checked by evaluation. -/
instance exceptDecEq {ε α : Type} [DecidableEq ε] [DecidableEq α] :
    DecidableEq (Except ε α) :=
  fun x y =>
    match x, y with
    | .error a, .error b =>
      if h : a = b then .isTrue (by rw [h])
      else .isFalse (fun hc => by injection hc with h2; exact h h2)
    | .error _, .ok _ => .isFalse (fun hc => Except.noConfusion hc)
    | .ok _, .error _ => .isFalse (fun hc => Except.noConfusion hc)
    | .ok a, .ok b =>
      if h : a = b then .isTrue (by rw [h])
      else .isFalse (fun hc => by injection hc with h2; exact h h2)

/-- `to_obj_id` from `main.py`: validate an identifier string, raising
`InvalidIdentifier` (HTTP 400) when the ObjectId constructor rejects it. -/
def to_obj_id (id_str : String) : Except ApiError String :=
  if isValidObjectId id_str then .ok id_str else .error .invalidIdentifier

/-- A document of the `product` collection (schema `Product` in `schemas.py`,
restricted to the fields the embedded routes read). -/
structure Product where
  _id : String
  shop_id : String
  vendor_id : String
  title : String
  price : Rat
  category : Option String
  tags : List String
deriving Repr, DecidableEq

/-- One entry of a cart's `items` list: `{product_id, qty}`. -/
structure CartItem where
  product_id : String
  qty : Int
deriving Repr, DecidableEq

/-- A document of the `cart` collection (schema `Cart` in `schemas.py`). -/
structure Cart where
  _id : Nat
  user_id : String
  items : List CartItem
deriving Repr, DecidableEq

/-- One entry of an order's `items` list: `{product_id, qty, price}`. -/
structure OrderItem where
  product_id : String
  qty : Int
  price : Rat
deriving Repr, DecidableEq

/-- A document of the `order` collection (schema `Order` in `schemas.py`). -/
structure OrderDoc where
  _id : Nat
  user_id : String
  items : List OrderItem
  total : Rat
  status : String
deriving Repr, DecidableEq

/-- The store state: the three collections the embedded routes touch, plus
the store's fresh-identifier counter (Mongo generates `_id`s; `nextId`
models that generator, so ids of existing documents are below it). -/
structure DB where
  products : List Product
  carts : List Cart
  orders : List OrderDoc
  nextId : Nat
deriving Repr, DecidableEq

/-- Store well-formedness, guaranteed by MongoDB: `_id` is a primary key
(no two cart documents share one), and every existing id is older than the
generator's next value. -/
def DB.wf (db : DB) : Prop :=
  (db.carts.map (fun c => c._id)).Nodup ∧
  ∀ i ∈ db.carts.map (fun c => c._id), i < db.nextId

instance (db : DB) : Decidable db.wf := by
  unfold DB.wf; infer_instance

/-- `db["cart"].find_one({"user_id": user_id})`: first cart of the
collection whose `user_id` matches. -/
def findCart (db : DB) (user_id : String) : Option Cart :=
  db.carts.find? (fun c => decide (c.user_id = user_id))

/-- `db["product"].find_one({"_id": oid})`: first product whose `_id`
matches. -/
def findProduct (db : DB) (pid : String) : Option Product :=
  db.products.find? (fun p => decide (p._id = pid))

/-- `db["cart"].update_one({"_id": cid}, {"$set": {"items": its}})`:
rewrite the `items` field of the first cart whose `_id` matches. -/
def updateCartItems : List Cart → Nat → List CartItem → List Cart
  | [], _, _ => []
  | c :: rest, cid, its =>
    if c._id = cid then { c with items := its } :: rest
    else c :: updateCartItems rest cid its

/-- Floor of a rational as an integer (`fdiv` rounds toward negative
infinity, and denominators are positive). -/
def ratFloor (x : Rat) : Int := Int.fdiv x.num (x.den : Int)

/-- Python's `round` to 2 decimal places on a `Rat`: scale by 100, round
half to even, scale back.  Comparisons go through the executable
`Rat.blt` so that concrete checkouts evaluate. -/
def round2 (x : Rat) : Rat :=
  let y := x * 100
  let n := ratFloor y
  let frac := y - (n : Rat)
  let r :=
    if Rat.blt frac (mkRat 1 2) then n
    else if Rat.blt (mkRat 1 2) frac then n + 1
    else if n % 2 = 0 then n else n + 1
  mkRat r 100

/-- `get_cart` from `main.py` (the spec's `getOrCreateCart`): look the cart
up by `user_id`; when absent, persist `Cart(user_id=user_id, items=[])`
(via `create_document`, modelled as append with a fresh `_id`) and return
the re-read document. -/
def get_cart (db : DB) (user_id : String) : DB × Cart :=
  match findCart db user_id with
  | some doc => (db, doc)
  | none =>
    let cart : Cart := ⟨db.nextId, user_id, []⟩
    ({ db with carts := db.carts ++ [cart], nextId := db.nextId + 1 }, cart)

/-- The item-merge loop of `add_to_cart`: bump `qty` on the first entry
with the given `product_id`, else append a new `{product_id, qty}` entry. -/
def addItemToList : List CartItem → String → Int → List CartItem
  | [], pid, q => [⟨pid, q⟩]
  | it :: rest, pid, q =>
    if it.product_id = pid then ⟨it.product_id, it.qty + q⟩ :: rest
    else it :: addItemToList rest pid q

/-- `add_to_cart` from `main.py`: load (or insert empty) the user's cart,
merge the submitted item into its `items`, persist with `update_one`, and
return the re-read cart (`find_one` by `_id`). -/
def add_to_cart (db : DB) (user_id : String) (item : CartItem) :
    DB × Option Cart :=
  let fc := findCart db user_id
  let db1 : DB :=
    match fc with
    | some _ => db
    | none =>
      { db with
          carts := db.carts ++ [⟨db.nextId, user_id, []⟩],
          nextId := db.nextId + 1 }
  let cart : Cart :=
    match fc with
    | some c => c
    | none => ⟨db.nextId, user_id, []⟩
  let items1 := addItemToList cart.items item.product_id item.qty
  let db2 : DB := { db1 with carts := updateCartItems db1.carts cart._id items1 }
  (db2, db2.carts.find? (fun c => decide (c._id = cart._id)))

/-- `remove_from_cart` from `main.py` (the spec's `removeItem`): 404 when
the user has no cart; otherwise keep only the entries whose `product_id`
differs, persist with `update_one`, and return the re-read cart. -/
def remove_from_cart (db : DB) (user_id : String) (item : CartItem) :
    Except ApiError (DB × Option Cart) :=
  match findCart db user_id with
  | none => .error .cartNotFound
  | some cart =>
    let items1 := cart.items.filter (fun it => decide (it.product_id ≠ item.product_id))
    let db1 : DB := { db with carts := updateCartItems db.carts cart._id items1 }
    .ok (db1, db1.carts.find? (fun c => decide (c._id = cart._id)))

/-- What `checkout` returns to the caller: `{"id": ..., "total": ..., "status": ...}`. -/
structure CheckoutResult where
  id : Nat
  total : Rat
  status : String
deriving Repr, DecidableEq

/-- The item loop of `checkout`: walk the cart items in order, validate each
stored `product_id` with `to_obj_id` (raising aborts the whole request),
silently skip items whose product no longer exists, and for the rest
snapshot the current price, accumulate `total += price * qty` and append
`{product_id, qty, price}`. -/
def buildLoop (db : DB) :
    List CartItem → List OrderItem → Rat → Except ApiError (List OrderItem × Rat)
  | [], acc, total => .ok (acc, total)
  | it :: rest, acc, total =>
    match to_obj_id it.product_id with
    | .error e => .error e
    | .ok pid =>
      match findProduct db pid with
      | none => buildLoop db rest acc total
      | some prod =>
        buildLoop db rest (acc ++ [⟨it.product_id, it.qty, prod.price⟩])
          (total + prod.price * (it.qty : Rat))

/-- `checkout` from `main.py`: reject absent or empty carts with 400
"Cart is empty"; build the order items and total from the cart; persist
`Order(user_id, items, total=round(total, 2), status="paid")`; clear the
cart's `items` to `[]`; return the order's id, total and status. -/
def checkout (db : DB) (user_id : String) :
    Except ApiError (DB × CheckoutResult) :=
  match findCart db user_id with
  | none => .error .emptyCart
  | some cart =>
    if cart.items.isEmpty then .error .emptyCart
    else
      match buildLoop db cart.items [] 0 with
      | .error e => .error e
      | .ok (order_items, total) =>
        let order : OrderDoc :=
          ⟨db.nextId, user_id, order_items, round2 total, "paid"⟩
        let db1 : DB :=
          { products := db.products,
            carts := updateCartItems db.carts cart._id [],
            orders := db.orders ++ [order],
            nextId := db.nextId + 1 }
        .ok (db1, ⟨order._id, order.total, order.status⟩)

/-- List membership test for chars as a prefix: `prefixOf n h` holds when
`n` is an initial segment of `h`. -/
def prefixOf : List Char → List Char → Bool
  | [], _ => true
  | _ :: _, [] => false
  | a :: as, b :: bs => a = b && prefixOf as bs

/-- Contiguous-substring test on char lists. -/
def substrOf : List Char → List Char → Bool
  | needle, [] => decide (needle = [])
  | needle, c :: t => prefixOf needle (c :: t) || substrOf needle t

/-- Case-insensitive containment: does `hay` contain `needle` as a
substring, ignoring case? -/
def containsCI (hay needle : String) : Bool :=
  substrOf (needle.data.map Char.toLower) (hay.data.map Char.toLower)

/-- Modelled from the spec: the document store's evaluation of the
`$or`-of-case-insensitive-`$regex` query that `list_products` builds for a
free-text term `q` (query execution lives in the store / `database.py`,
not under `src/`): `q` must occur case-insensitively as a substring of the
title or of at least one tag. -/
def qMatches (q : String) (p : Product) : Bool :=
  containsCI p.title q || p.tags.any (fun t => containsCI t q)

/-- Python truthiness of an optional query parameter: absent or empty
strings deactivate the filter. -/
def truthy : Option String → Bool
  | none => false
  | some s => decide (s ≠ "")

/-- The conjunctive filter `list_products` compiles: exact `shop_id` match,
exact `category` match, and the free-text `q` match, each only when the
parameter is truthy. -/
def productQuery (shop_id category q : Option String) (p : Product) : Bool :=
  (if truthy shop_id then decide (p.shop_id = shop_id.getD "") else true) &&
  (if truthy category then decide (p.category = some (category.getD "")) else true) &&
  (if truthy q then qMatches (q.getD "") p else true)

/-- `list_products` from `main.py`: filter the product collection by the
compiled query and cap the result at `limit` documents (`get_documents`
from missing `database.py`, modelled from the spec's store contract
`find(collection, filter, limit)`). -/
def list_products (db : DB) (shop_id q category : Option String) (limit : Nat) :
    List Product :=
  (db.products.filter (fun p => productQuery shop_id category q p)).take limit

/-- Run a sequence of `add_to_cart` requests `(product_id, qty)` for one
user against the store, threading the state. -/
def applyAdds (db : DB) (user_id : String) : List (String × Int) → DB
  | [] => db
  | r :: rs => applyAdds (add_to_cart db user_id ⟨r.1, r.2⟩).1 user_id rs

/-- The product ids occurring in a cart's items list, in order. -/
def cartIds (items : List CartItem) : List String :=
  items.map (fun it => it.product_id)

/-- Total quantity a cart's items list records for one product id. -/
def qtyOf (items : List CartItem) (pid : String) : Int :=
  ((items.filter (fun it => decide (it.product_id = pid))).map (fun it => it.qty)).sum

/-- Total quantity a request sequence submits for one product id. -/
def reqSum (reqs : List (String × Int)) (pid : String) : Int :=
  ((reqs.filter (fun r => decide (r.1 = pid))).map (fun r => r.2)).sum

/-! Concrete sample data used to instantiate the theorems. -/

def pidA : String := "aaaaaaaaaaaaaaaaaaaaaaaa"

def pidB : String := "bbbbbbbbbbbbbbbbbbbbbbbb"

def prodA : Product := ⟨pidA, "s1", "v1", "Red Shoes", 10, some "shoes", ["red-shoe-sale"]⟩

def prodB : Product := ⟨pidB, "s1", "v1", "Blue Hat", 11 / 2, some "hats", []⟩

/-- Sample store: two products and one cart for user `u` holding
`[{pidA, qty 2}, {pidB, qty 1}]`. -/
def dbW : DB := ⟨[prodA, prodB], [⟨0, "u", [⟨pidA, 2⟩, ⟨pidB, 1⟩]⟩], [], 1⟩

/-- The store after `checkout dbW "u"`. -/
def dbW1 : DB :=
  ⟨[prodA, prodB], [⟨0, "u", []⟩],
    [⟨1, "u", [⟨pidA, 2, 10⟩, ⟨pidB, 1, 11 / 2⟩], 51 / 2, "paid"⟩], 2⟩

/-- The response of `checkout dbW "u"`. -/
def resW : CheckoutResult := ⟨1, 51 / 2, "paid"⟩

/-- Sample store whose only cart references a well-formed product id with
no matching product document. -/
def dbGhost : DB := ⟨[], [⟨0, "u", [⟨pidA, 1⟩]⟩], [], 1⟩

/-- The store after `checkout dbGhost "u"`: the created order has an empty
items list. -/
def dbGhost1 : DB := ⟨[], [⟨0, "u", []⟩], [⟨1, "u", [], 0, "paid"⟩], 2⟩

/-- Sample store whose only cart holds a malformed product id. -/
def dbBadId : DB := ⟨[prodA], [⟨0, "u", [⟨"oops", 1⟩]⟩], [], 1⟩

def pidC : String := "cccccccccccccccccccccccc"

def pidD : String := "dddddddddddddddddddddddd"

/-- A product carrying the spec's example tag but no matching title. -/
def prodC : Product := ⟨pidC, "s2", "v2", "Canvas Sneaker", 8, none, ["red-shoe-sale", "summer"]⟩

/-- A product with neither a matching title nor a matching tag. -/
def prodD : Product := ⟨pidD, "s2", "v2", "Blue Cap", 7, none, ["winter"]⟩

/-- An entirely empty store. -/
def dbEmpty : DB := ⟨[], [], [], 0⟩

/-- A store holding just one empty cart for user `u`. -/
def dbCart0 : DB := ⟨[], [⟨0, "u", []⟩], [], 1⟩

/-- Sample store matching the spec's deleted-product scenario: the cart
references `prodA` (present) and `pidB` (no such product document). -/
def dbStale : DB := ⟨[prodA], [⟨0, "u", [⟨pidA, 1⟩, ⟨pidB, 3⟩]⟩], [], 1⟩

/-- Sample product catalogue for the listing-filter theorem. -/
def dbCatalog : DB := ⟨[prodA, prodC, prodD], [], [], 0⟩

/-! Lemmas about the store primitives. -/

/-- Finding in an appended list when the first part has no match. -/
theorem find?_append_none {α : Type} (p : α → Bool) (l1 l2 : List α)
    (h : l1.find? p = none) : (l1 ++ l2).find? p = l2.find? p := by
  simp [List.find?_append, h]

/-- `update_one` on the `items` field leaves the collection's ids unchanged. -/
theorem mapId_updateCartItems (l : List Cart) (cid : Nat) (its : List CartItem) :
    (updateCartItems l cid its).map (fun c => c._id) = l.map (fun c => c._id) := by
  induction l with
  | nil => rfl
  | cons c t ih =>
    by_cases hc : c._id = cid
    · simp [updateCartItems, hc]
    · simp [updateCartItems, hc, ih]

/-- `update_one` on the `items` field leaves the collection's owners unchanged. -/
theorem mapUser_updateCartItems (l : List Cart) (cid : Nat) (its : List CartItem) :
    (updateCartItems l cid its).map (fun c => c.user_id) = l.map (fun c => c.user_id) := by
  induction l with
  | nil => rfl
  | cons c t ih =>
    by_cases hc : c._id = cid
    · simp [updateCartItems, hc]
    · simp [updateCartItems, hc, ih]

/-- After rewriting the items of the cart found by owner, looking the owner
up again yields the rewritten cart (ids are a primary key). -/
theorem find?_user_updateCartItems (l : List Cart) (uid : String) (cart : Cart)
    (its : List CartItem) (hnd : (l.map (fun c => c._id)).Nodup)
    (h : l.find? (fun c => decide (c.user_id = uid)) = some cart) :
    (updateCartItems l cart._id its).find? (fun c => decide (c.user_id = uid)) =
      some { cart with items := its } := by
  induction l with
  | nil => simp at h
  | cons c t ih =>
    rw [List.map_cons, List.nodup_cons] at hnd
    by_cases hc : c.user_id = uid
    · rw [List.find?_cons_of_pos _ (by simp [hc])] at h
      injection h with h
      subst h
      simp only [updateCartItems, if_pos rfl]
      exact List.find?_cons_of_pos _ (by simp [hc])
    · rw [List.find?_cons_of_neg _ (by simp [hc])] at h
      have hmem : cart ∈ t := List.mem_of_find?_eq_some h
      have hid : ¬ c._id = cart._id := by
        intro he
        exact hnd.1 (he ▸ List.mem_map_of_mem _ hmem)
      simp only [updateCartItems, if_neg hid]
      rw [List.find?_cons_of_neg _ (by simp [hc])]
      exact ih hnd.2 h

/-- After rewriting the items of the cart found by owner, looking its id up
yields the rewritten cart (this is the re-read the routes return). -/
theorem find?_id_updateCartItems (l : List Cart) (uid : String) (cart : Cart)
    (its : List CartItem) (hnd : (l.map (fun c => c._id)).Nodup)
    (h : l.find? (fun c => decide (c.user_id = uid)) = some cart) :
    (updateCartItems l cart._id its).find? (fun c => decide (c._id = cart._id)) =
      some { cart with items := its } := by
  induction l with
  | nil => simp at h
  | cons c t ih =>
    rw [List.map_cons, List.nodup_cons] at hnd
    by_cases hc : c.user_id = uid
    · rw [List.find?_cons_of_pos _ (by simp [hc])] at h
      injection h with h
      subst h
      simp only [updateCartItems, if_pos rfl]
      exact List.find?_cons_of_pos _ (by simp)
    · rw [List.find?_cons_of_neg _ (by simp [hc])] at h
      have hmem : cart ∈ t := List.mem_of_find?_eq_some h
      have hid : ¬ c._id = cart._id := by
        intro he
        exact hnd.1 (he ▸ List.mem_map_of_mem _ hmem)
      simp only [updateCartItems, if_neg hid]
      rw [List.find?_cons_of_neg _ (by simp [hid])]
      exact ih hnd.2 h

/-- `to_obj_id` succeeds on valid identifiers, returning them unchanged. -/
theorem to_obj_id_valid (s : String) (h : isValidObjectId s = true) :
    to_obj_id s = .ok s := by
  simp [to_obj_id, h]

/-- `to_obj_id` raises `InvalidIdentifier` on malformed identifiers. -/
theorem to_obj_id_invalid (s : String) (h : isValidObjectId s = false) :
    to_obj_id s = .error .invalidIdentifier := by
  simp [to_obj_id, h]

/-- The checkout item loop accumulates exactly the per-line `price * qty`
contributions of the order items it appends. -/
theorem buildLoop_ok_total (db : DB) (l : List CartItem) :
    ∀ (acc : List OrderItem) (t : Rat) (acc1 : List OrderItem) (t1 : Rat),
    buildLoop db l acc t = .ok (acc1, t1) →
    ∃ nw, acc1 = acc ++ nw ∧
      t1 = t + (nw.map (fun i => i.price * (i.qty : Rat))).sum := by
  induction l with
  | nil =>
    intro acc t acc1 t1 h
    rw [buildLoop] at h
    injection h with h
    injection h with h1 h2
    exact ⟨[], by simp [← h1, ← h2]⟩
  | cons it rest ih =>
    intro acc t acc1 t1 h
    rw [buildLoop] at h
    split at h
    · exact absurd h (by simp)
    · split at h
      · exact ih _ _ _ _ h
      · obtain ⟨nw, h1, h2⟩ := ih _ _ _ _ h
        rename_i prod _
        refine ⟨⟨it.product_id, it.qty, prod.price⟩ :: nw, ?_, ?_⟩
        · simp [h1]
        · simp [h2, add_assoc]

/-- When every stored product id in the cart is well formed, the checkout
item loop succeeds and produces one order line per cart item whose product
still exists, skipping the rest. -/
theorem buildLoop_all_valid (db : DB) (l : List CartItem)
    (hval : ∀ it ∈ l, isValidObjectId it.product_id = true) :
    ∀ (acc : List OrderItem) (t : Rat), ∃ t1,
      buildLoop db l acc t =
        .ok (acc ++ l.filterMap (fun it => (findProduct db it.product_id).map
          (fun prod => ⟨it.product_id, it.qty, prod.price⟩)), t1) := by
  induction l with
  | nil => exact fun acc t => ⟨t, by simp [buildLoop]⟩
  | cons it rest ih =>
    intro acc t
    have hv : isValidObjectId it.product_id = true := hval it (by simp)
    have hrest : ∀ x ∈ rest, isValidObjectId x.product_id = true :=
      fun x hx => hval x (by simp [hx])
    cases hp : findProduct db it.product_id with
    | none =>
      obtain ⟨t1, h1⟩ := ih hrest acc t
      refine ⟨t1, ?_⟩
      rw [buildLoop, to_obj_id_valid _ hv]
      simpa [hp] using h1
    | some prod =>
      obtain ⟨t1, h1⟩ :=
        ih hrest (acc ++ [⟨it.product_id, it.qty, prod.price⟩])
          (t + prod.price * (it.qty : Rat))
      refine ⟨t1, ?_⟩
      rw [buildLoop, to_obj_id_valid _ hv]
      rw [← List.append_cons] at h1
      simpa [hp] using h1

/-- A malformed product id anywhere in the cart makes the checkout item
loop abort with `InvalidIdentifier`. -/
theorem buildLoop_invalid (db : DB) (l : List CartItem)
    (hbad : ∃ it ∈ l, isValidObjectId it.product_id = false) :
    ∀ (acc : List OrderItem) (t : Rat),
      buildLoop db l acc t = .error .invalidIdentifier := by
  induction l with
  | nil => simp at hbad
  | cons it rest ih =>
    intro acc t
    cases hv : isValidObjectId it.product_id with
    | false => rw [buildLoop, to_obj_id_invalid _ hv]
    | true =>
      have hbad1 : ∃ x ∈ rest, isValidObjectId x.product_id = false := by
        obtain ⟨x, hx, hfx⟩ := hbad
        rcases List.mem_cons.mp hx with h | h
        · rw [h] at hfx; rw [hv] at hfx; exact absurd hfx (by simp)
        · exact ⟨x, h, hfx⟩
      rw [buildLoop, to_obj_id_valid _ hv]
      cases hp : findProduct db it.product_id with
      | none => simpa [hp] using ih hbad1 acc t
      | some prod => simpa [hp] using ih hbad1 _ _

/-- Anatomy of a successful checkout: the cart found for the user was
non-empty, the item loop succeeded, and the new store appends exactly one
order, clears that cart, and returns the order's id, total and status. -/
theorem checkout_ok_elim (db : DB) (uid : String) (db1 : DB) (res : CheckoutResult)
    (h : checkout db uid = .ok (db1, res)) :
    ∃ cart order_items total, findCart db uid = some cart ∧
      cart.items.isEmpty = false ∧
      buildLoop db cart.items [] 0 = .ok (order_items, total) ∧
      db1 = ⟨db.products, updateCartItems db.carts cart._id [],
             db.orders ++ [⟨db.nextId, uid, order_items, round2 total, "paid"⟩],
             db.nextId + 1⟩ ∧
      res = ⟨db.nextId, round2 total, "paid"⟩ := by
  unfold checkout at h
  split at h
  · exact absurd h (by simp)
  · rename_i cart hfc
    split at h
    · exact absurd h (by simp)
    · rename_i hne
      split at h
      · exact absurd h (by simp)
      · rename_i order_items total hbl
        refine ⟨cart, order_items, total, hfc, by simpa using hne, hbl, ?_, ?_⟩
        · injection h with h
          injection h with h1 h2
          exact h1.symm
        · injection h with h
          injection h with h1 h2
          exact h2.symm

/-! Claim theorems about the checkout engine. -/

/-- C1: every successful checkout creates one order whose total is the
2-decimal rounding of the sum of `price * qty` over the order's items,
whose status is `"paid"`, and the returned value is exactly that order's
id, total and status. -/
theorem checkout_total_status (db : DB) (uid : String) (db1 : DB) (res : CheckoutResult)
    (h : checkout db uid = .ok (db1, res)) :
    ∃ order : OrderDoc, db1.orders = db.orders ++ [order] ∧
      order.total = round2 ((order.items.map (fun i => i.price * (i.qty : Rat))).sum) ∧
      order.status = "paid" ∧
      res = ⟨order._id, order.total, order.status⟩ := by
  obtain ⟨cart, oi, total, hfc, hne, hbl, hdb, hres⟩ := checkout_ok_elim db uid db1 res h
  obtain ⟨nw, h1, h2⟩ := buildLoop_ok_total db cart.items [] 0 oi total hbl
  refine ⟨⟨db.nextId, uid, oi, round2 total, "paid"⟩, ?_, ?_, rfl, ?_⟩
  · rw [hdb]
  · have ht : total = (oi.map (fun i => i.price * (i.qty : Rat))).sum := by
      rw [h1]
      simpa using h2
    simp [ht]
  · rw [hres]

/-- C2: when every stored product id in the (non-empty) cart is well
formed, checkout succeeds and the created order carries exactly one line
`{product_id, qty, price}` per cart item whose product still exists —
price snapshotted from the product — while items whose product is gone are
silently skipped. -/
theorem checkout_skips_missing (db : DB) (uid : String) (cart : Cart)
    (h : findCart db uid = some cart) (hne : cart.items ≠ [])
    (hval : ∀ it ∈ cart.items, isValidObjectId it.product_id = true) :
    ∃ db1 res order, checkout db uid = .ok (db1, res) ∧
      db1.orders = db.orders ++ [order] ∧
      order.items = cart.items.filterMap (fun it =>
        (findProduct db it.product_id).map
          (fun prod => ⟨it.product_id, it.qty, prod.price⟩)) := by
  obtain ⟨t1, hbl⟩ := buildLoop_all_valid db cart.items hval [] 0
  rw [List.nil_append] at hbl
  have hne2 : cart.items.isEmpty = false := by simpa using hne
  refine ⟨⟨db.products, updateCartItems db.carts cart._id [],
          db.orders ++ [⟨db.nextId, uid,
            cart.items.filterMap (fun it => (findProduct db it.product_id).map
              (fun prod => ⟨it.product_id, it.qty, prod.price⟩)), round2 t1, "paid"⟩],
          db.nextId + 1⟩,
        ⟨db.nextId, round2 t1, "paid"⟩,
        ⟨db.nextId, uid, cart.items.filterMap (fun it => (findProduct db it.product_id).map
          (fun prod => ⟨it.product_id, it.qty, prod.price⟩)), round2 t1, "paid"⟩,
        ?_, rfl, rfl⟩
  unfold checkout
  rw [h]
  simp [hne2, hbl]

/-- C3: checkout on an absent cart, or on a cart whose items list is
empty, fails with `EmptyCart` (the error branch performs no store write,
so no order is created and nothing changes). -/
theorem checkout_empty_cart_rejected (db : DB) (uid : String)
    (h : findCart db uid = none ∨ ∃ cart, findCart db uid = some cart ∧ cart.items = []) :
    checkout db uid = .error .emptyCart := by
  rcases h with h | ⟨cart, h, hi⟩
  · unfold checkout
    rw [h]
  · unfold checkout
    rw [h]
    simp [hi]

/-- C4 counterexample: a checkout on a non-empty cart whose only item
references a well-formed but non-existent product id succeeds and creates
an order whose items list is empty — a zero-item order. -/
theorem checkout_zero_item_order_cex :
    checkout dbGhost "u" = .ok (dbGhost1, ⟨1, 0, "paid"⟩) ∧
    dbGhost1.orders = [⟨1, "u", [], 0, "paid"⟩] ∧
    (⟨1, "u", [], 0, "paid"⟩ : OrderDoc).items = [] := by
  exact ⟨by decide, rfl, rfl⟩

/-- C4 amended: every checkout that creates an order was run against an
existing cart with a non-empty items list (empty or absent carts are
rejected); the created order's own items list, however, can be empty when
every cart item references a missing product. -/
theorem checkout_order_needs_nonempty_cart (db : DB) (uid : String) (db1 : DB)
    (res : CheckoutResult) (h : checkout db uid = .ok (db1, res)) :
    ∃ cart, findCart db uid = some cart ∧ cart.items ≠ [] := by
  obtain ⟨cart, _, _, hfc, hne, _, _, _⟩ := checkout_ok_elim db uid db1 res h
  exact ⟨cart, hfc, by simpa using hne⟩

/-- C6: after a successful checkout the user's cart document still exists
with the same identity and owner, and its items list is cleared to `[]`. -/
theorem checkout_clears_cart (db : DB) (uid : String) (db1 : DB) (res : CheckoutResult)
    (hwf : db.wf) (h : checkout db uid = .ok (db1, res)) :
    ∃ cart, findCart db uid = some cart ∧
      findCart db1 uid = some { cart with items := [] } := by
  obtain ⟨cart, oi, total, hfc, hne, hbl, hdb, hres⟩ := checkout_ok_elim db uid db1 res h
  refine ⟨cart, hfc, ?_⟩
  rw [hdb]
  exact find?_user_updateCartItems db.carts uid cart [] hwf.1 hfc

/-- C10: a malformed stored product id anywhere in a non-empty cart makes
the whole checkout abort with `InvalidIdentifier`; the abort happens inside
the item loop, before the order insert and the cart-clearing write, so no
order is created and the cart is untouched. -/
theorem checkout_invalid_id_aborts (db : DB) (uid : String) (cart : Cart)
    (h : findCart db uid = some cart)
    (hbad : ∃ it ∈ cart.items, isValidObjectId it.product_id = false) :
    checkout db uid = .error .invalidIdentifier := by
  have hne : cart.items.isEmpty = false := by
    obtain ⟨it, hit, _⟩ := hbad
    simp [List.isEmpty_eq_false]
    exact List.ne_nil_of_mem hit
  unfold checkout
  rw [h]
  simp [hne, buildLoop_invalid db cart.items hbad]

/-! Lemmas about the cart manager. -/

/-- Per-product quantity of a cons. -/
theorem qtyOf_cons (it : CartItem) (l : List CartItem) (p : String) :
    qtyOf (it :: l) p = (if it.product_id = p then it.qty else 0) + qtyOf l p := by
  by_cases h : it.product_id = p
  · simp [qtyOf, h]
  · simp [qtyOf, h]

/-- Per-product submitted quantity of a cons. -/
theorem reqSum_cons (r : String × Int) (l : List (String × Int)) (p : String) :
    reqSum (r :: l) p = (if r.1 = p then r.2 else 0) + reqSum l p := by
  by_cases h : r.1 = p
  · simp [reqSum, h]
  · simp [reqSum, h]

/-- One `addItem` merge raises the stored quantity of the submitted
product id by `q` and leaves every other product id's quantity alone. -/
theorem qtyOf_addItemToList (items : List CartItem) (pid : String) (q : Int) (p : String) :
    qtyOf (addItemToList items pid q) p = qtyOf items p + (if p = pid then q else 0) := by
  induction items with
  | nil =>
    by_cases hp : p = pid
    · simp [addItemToList, qtyOf_cons, qtyOf, hp]
    · have hp2 : ¬ pid = p := fun h => hp h.symm
      simp [addItemToList, qtyOf_cons, qtyOf, hp, hp2]
  | cons it rest ih =>
    by_cases hit : it.product_id = pid
    · rw [addItemToList, if_pos hit, qtyOf_cons, qtyOf_cons]
      dsimp only
      by_cases hp : it.product_id = p
      · rw [if_pos hp, if_pos hp, if_pos (by rw [← hp, hit])]
        omega
      · have hp2 : ¬ p = pid := by
          rw [← hit]
          exact fun h => hp h.symm
        rw [if_neg hp, if_neg hp, if_neg hp2]
        omega
    · rw [addItemToList, if_neg hit, qtyOf_cons, qtyOf_cons, ih]
      omega

/-- One `addItem` merge keeps the id list unchanged when the submitted id
is already present, and appends it otherwise. -/
theorem cartIds_addItemToList (items : List CartItem) (pid : String) (q : Int) :
    cartIds (addItemToList items pid q) =
      if pid ∈ cartIds items then cartIds items else cartIds items ++ [pid] := by
  induction items with
  | nil => simp [addItemToList, cartIds]
  | cons it rest ih =>
    by_cases hit : it.product_id = pid
    · rw [addItemToList, if_pos hit]
      have hm : pid ∈ cartIds (it :: rest) := by
        simp [cartIds]
        exact Or.inl hit.symm
      rw [if_pos hm]
      simp [cartIds]
    · rw [addItemToList, if_neg hit]
      have hne : ¬ pid = it.product_id := fun h => hit h.symm
      have hiff : pid ∈ cartIds (it :: rest) ↔ pid ∈ cartIds rest := by
        simp [cartIds, hne]
      by_cases hm : pid ∈ cartIds rest
      · rw [if_pos (hiff.mpr hm)]
        simp only [cartIds, List.map_cons]
        rw [show cartIds (addItemToList rest pid q) = List.map (fun it => it.product_id) (addItemToList rest pid q) from rfl] at ih
        rw [ih, if_pos (by simpa [cartIds] using hm)]
        simp [cartIds]
      · rw [if_neg (fun hx => hm (hiff.mp hx))]
        simp only [cartIds, List.map_cons]
        rw [show cartIds (addItemToList rest pid q) = List.map (fun it => it.product_id) (addItemToList rest pid q) from rfl] at ih
        rw [ih, if_neg (by simpa [cartIds] using hm)]
        simp [cartIds]

/-- Submitting a product id that is not in the cart appends a fresh entry. -/
theorem addItemToList_append_of_not_mem (items : List CartItem) (pid : String) (q : Int)
    (h : pid ∉ cartIds items) :
    addItemToList items pid q = items ++ [⟨pid, q⟩] := by
  induction items with
  | nil => rfl
  | cons it rest ih =>
    simp only [cartIds, List.map_cons, List.mem_cons] at h
    push_neg at h
    rw [addItemToList, if_neg (fun he => h.1 he.symm), ih (by simpa [cartIds] using h.2)]
    simp

/-- A product id absent from the cart matches no entry. -/
theorem filter_pid_nil_of_not_mem (items : List CartItem) (pid : String)
    (h : pid ∉ cartIds items) :
    items.filter (fun it => decide (it.product_id = pid)) = [] := by
  rw [List.filter_eq_nil_iff]
  intro it hit
  simp only [decide_eq_true_eq]
  intro he
  exact h (he ▸ List.mem_map_of_mem _ hit)

/-- A cart without duplicate product ids has at most one entry per id. -/
theorem length_filter_le_one_of_nodup (items : List CartItem) (pid : String)
    (h : (cartIds items).Nodup) :
    (items.filter (fun it => decide (it.product_id = pid))).length ≤ 1 := by
  induction items with
  | nil => simp
  | cons it rest ih =>
    simp only [cartIds, List.map_cons, List.nodup_cons] at h
    by_cases hp : it.product_id = pid
    · rw [List.filter_cons_of_pos (by simp [hp]),
        filter_pid_nil_of_not_mem rest pid (by simpa [cartIds, ← hp] using h.1)]
      simp
    · rw [List.filter_cons_of_neg (by simp [hp])]
      exact ih (by simpa [cartIds] using h.2)

/-- Folding a request sequence accumulates the submitted quantities. -/
theorem qtyOf_foldAdds (reqs : List (String × Int)) :
    ∀ (items : List CartItem) (p : String),
      qtyOf (reqs.foldl (fun acc r => addItemToList acc r.1 r.2) items) p =
        qtyOf items p + reqSum reqs p := by
  induction reqs with
  | nil => intro items p; simp [reqSum]
  | cons r rest ih =>
    intro items p
    simp only [List.foldl_cons]
    rw [ih, qtyOf_addItemToList, reqSum_cons]
    by_cases hp : p = r.1
    · rw [if_pos hp, if_pos hp.symm]
      omega
    · rw [if_neg hp, if_neg (fun h => hp h.symm)]
      omega

/-- Folding a request sequence preserves the no-duplicate-ids invariant. -/
theorem nodup_foldAdds (reqs : List (String × Int)) :
    ∀ items, (cartIds items).Nodup →
      (cartIds (reqs.foldl (fun acc r => addItemToList acc r.1 r.2) items)).Nodup := by
  induction reqs with
  | nil => intro items h; simpa using h
  | cons r rest ih =>
    intro items h
    simp only [List.foldl_cons]
    apply ih
    rw [cartIds_addItemToList]
    by_cases hm : r.1 ∈ cartIds items
    · simpa [hm] using h
    · rw [if_neg hm]
      simp [List.nodup_append, h, hm]

/-- A product id is stored after the fold iff it was stored before or was
submitted by some request. -/
theorem mem_cartIds_foldAdds (reqs : List (String × Int)) :
    ∀ (items : List CartItem) (p : String),
      p ∈ cartIds (reqs.foldl (fun acc r => addItemToList acc r.1 r.2) items) ↔
        p ∈ cartIds items ∨ p ∈ reqs.map (fun r => r.1) := by
  induction reqs with
  | nil => intro items p; simp
  | cons r rest ih =>
    intro items p
    simp only [List.foldl_cons, List.map_cons, List.mem_cons]
    rw [ih, cartIds_addItemToList]
    by_cases hm : r.1 ∈ cartIds items
    · rw [if_pos hm]
      constructor
      · intro h2
        rcases h2 with h2 | h2
        · exact Or.inl h2
        · exact Or.inr (Or.inr h2)
      · rintro (h2 | h2 | h2)
        · exact Or.inl h2
        · exact Or.inl (h2 ▸ hm)
        · exact Or.inr h2
    · rw [if_neg hm]
      simp only [List.mem_append, List.mem_singleton]
      constructor
      · rintro ((h2 | h2) | h2)
        · exact Or.inl h2
        · exact Or.inr (Or.inl h2)
        · exact Or.inr (Or.inr h2)
      · rintro (h2 | h2 | h2)
        · exact Or.inl (Or.inl h2)
        · exact Or.inl (Or.inr h2)
        · exact Or.inr h2

/-- Well-formedness transfers along equal id lists and a non-decreasing
fresh-id counter. -/
theorem wf_of_carts_nextId (db1 db2 : DB)
    (hc : db2.carts.map (fun c => c._id) = db1.carts.map (fun c => c._id))
    (hn : db1.nextId ≤ db2.nextId) (hwf : db1.wf) : db2.wf := by
  constructor
  · rw [hc]; exact hwf.1
  · intro i hi
    rw [hc] at hi
    exact lt_of_lt_of_le (hwf.2 i hi) hn

/-- One `add_to_cart` on an existing cart: the user's cart afterwards
holds the merged items, and well-formedness is preserved. -/
theorem add_to_cart_step (db : DB) (uid : String) (item : CartItem) (cart : Cart)
    (hwf : db.wf) (h : findCart db uid = some cart) :
    findCart (add_to_cart db uid item).1 uid =
      some { cart with items := addItemToList cart.items item.product_id item.qty } ∧
    (add_to_cart db uid item).1.wf := by
  have hstep : (add_to_cart db uid item).1 =
      { db with
          carts := updateCartItems db.carts cart._id
            (addItemToList cart.items item.product_id item.qty) } := by
    unfold add_to_cart
    rw [h]
  rw [hstep]
  constructor
  · exact find?_user_updateCartItems db.carts uid cart _ hwf.1 h
  · exact wf_of_carts_nextId db _ (by simpa using mapId_updateCartItems db.carts _ _)
      (le_refl _) hwf

/-- One `add_to_cart` for a user without a cart: an empty cart is created
first, then merged into, and well-formedness is preserved. -/
theorem add_to_cart_step_new (db : DB) (uid : String) (item : CartItem)
    (hwf : db.wf) (h : findCart db uid = none) :
    findCart (add_to_cart db uid item).1 uid =
      some ⟨db.nextId, uid, addItemToList [] item.product_id item.qty⟩ ∧
    (add_to_cart db uid item).1.wf := by
  have hfind : (db.carts ++ [(⟨db.nextId, uid, []⟩ : Cart)]).find?
      (fun c => decide (c.user_id = uid)) = some ⟨db.nextId, uid, []⟩ := by
    rw [find?_append_none _ _ _ h]
    exact List.find?_cons_of_pos _ (by simp)
  have hnd : ((db.carts ++ [(⟨db.nextId, uid, []⟩ : Cart)]).map (fun c => c._id)).Nodup := by
    rw [List.map_append]
    simp only [List.map_cons, List.map_nil]
    rw [List.nodup_append]
    refine ⟨hwf.1, List.nodup_singleton _, ?_⟩
    intro i hi
    simp only [List.mem_singleton]
    intro he
    exact absurd (hwf.2 i hi) (by rw [he]; exact lt_irrefl _)
  have hstep : (add_to_cart db uid item).1 =
      { db with
          carts := updateCartItems (db.carts ++ [⟨db.nextId, uid, []⟩]) db.nextId
            (addItemToList [] item.product_id item.qty),
          nextId := db.nextId + 1 } := by
    unfold add_to_cart
    rw [h]
  rw [hstep]
  constructor
  · exact find?_user_updateCartItems _ uid ⟨db.nextId, uid, []⟩ _ hnd hfind
  · refine wf_of_carts_nextId ⟨db.products, db.carts ++ [⟨db.nextId, uid, []⟩],
      db.orders, db.nextId + 1⟩ _ ?_ ?_ ?_
    · dsimp only
      exact mapId_updateCartItems (db.carts ++ [⟨db.nextId, uid, []⟩])
        db.nextId (addItemToList [] item.product_id item.qty)
    · exact le_refl _
    · constructor
      · exact hnd
      · intro i hi
        rw [List.map_append] at hi
        rcases List.mem_append.mp hi with hi | hi
        · exact lt_trans (hwf.2 i hi) (lt_add_one _)
        · simp at hi
          rw [hi]
          exact lt_add_one _

/-- Running a request sequence against a store with an existing cart for
the user folds the merge over the cart's items and keeps the store well
formed. -/
theorem applyAdds_spec (reqs : List (String × Int)) :
    ∀ (db : DB) (uid : String) (cart : Cart), db.wf → findCart db uid = some cart →
      ∃ c : Cart, findCart (applyAdds db uid reqs) uid = some c ∧
        c.items = reqs.foldl (fun acc r => addItemToList acc r.1 r.2) cart.items ∧
        (applyAdds db uid reqs).wf := by
  induction reqs with
  | nil => intro db uid cart hwf h; exact ⟨cart, h, rfl, hwf⟩
  | cons r rest ih =>
    intro db uid cart hwf h
    obtain ⟨hf, hwf2⟩ := add_to_cart_step db uid ⟨r.1, r.2⟩ cart hwf h
    obtain ⟨c, hc1, hc2, hc3⟩ := ih _ uid _ hwf2 hf
    refine ⟨c, ?_, ?_, ?_⟩
    · simpa [applyAdds] using hc1
    · simpa using hc2
    · simpa [applyAdds] using hc3

/-! Claim theorems about the cart manager and the listing filter. -/

/-- C5: running any sequence of add-item requests against a user's
initially empty cart yields a cart with at most one entry per product id,
whose quantity is the sum of all quantities submitted for that id; a
submitted id already present is merged by adding quantities, and a new id
is appended as a fresh entry. -/
theorem addItem_merge_invariant (db : DB) (uid : String) (cart : Cart)
    (reqs : List (String × Int)) (hwf : db.wf)
    (h : findCart db uid = some cart) (h0 : cart.items = []) :
    ∃ c : Cart, findCart (applyAdds db uid reqs) uid = some c ∧
      (∀ pid, (c.items.filter (fun it => decide (it.product_id = pid))).length ≤ 1) ∧
      (∀ pid, qtyOf c.items pid = reqSum reqs pid) ∧
      (∀ pid, pid ∈ cartIds c.items ↔ pid ∈ reqs.map (fun r => r.1)) ∧
      (∀ (items : List CartItem) (pid : String) (q : Int), pid ∉ cartIds items →
        addItemToList items pid q = items ++ [⟨pid, q⟩]) := by
  obtain ⟨c, hc1, hc2, _⟩ := applyAdds_spec reqs db uid cart hwf h
  rw [h0] at hc2
  have hnd : (cartIds c.items).Nodup := by
    rw [hc2]
    exact nodup_foldAdds reqs [] (by simp [cartIds])
  refine ⟨c, hc1, ?_, ?_, ?_, addItemToList_append_of_not_mem⟩
  · intro pid
    exact length_filter_le_one_of_nodup c.items pid hnd
  · intro pid
    rw [hc2, qtyOf_foldAdds]
    simp [qtyOf]
  · intro pid
    rw [hc2, mem_cartIds_foldAdds]
    simp [cartIds]

/-- C7: `remove_from_cart` fails with `CartNotFound` when the user has no
cart; on an existing cart it drops every entry carrying the given product
id (a no-op when none matches), persists the remainder, and returns the
updated cart. -/
theorem removeItem_spec (db : DB) (uid : String) (item : CartItem) (hwf : db.wf) :
    (findCart db uid = none → remove_from_cart db uid item = .error .cartNotFound) ∧
    (∀ cart, findCart db uid = some cart →
      ∃ db1, remove_from_cart db uid item = .ok (db1, some { cart with
          items := cart.items.filter (fun it => decide (it.product_id ≠ item.product_id)) }) ∧
        findCart db1 uid = some { cart with
          items := cart.items.filter (fun it => decide (it.product_id ≠ item.product_id)) } ∧
        ((∀ it2 ∈ cart.items, it2.product_id ≠ item.product_id) →
          cart.items.filter (fun it => decide (it.product_id ≠ item.product_id)) = cart.items)) := by
  constructor
  · intro h
    unfold remove_from_cart
    rw [h]
  · intro cart h
    have hstep : remove_from_cart db uid item =
        .ok ({ db with
            carts := updateCartItems db.carts cart._id
              (cart.items.filter (fun it => decide (it.product_id ≠ item.product_id))) },
          (updateCartItems db.carts cart._id
              (cart.items.filter (fun it => decide (it.product_id ≠ item.product_id)))).find?
            (fun c => decide (c._id = cart._id))) := by
      unfold remove_from_cart
      rw [h]
    refine ⟨{ db with
        carts := updateCartItems db.carts cart._id
          (cart.items.filter (fun it => decide (it.product_id ≠ item.product_id))) },
      ?_, ?_, ?_⟩
    · rw [hstep,
        find?_id_updateCartItems db.carts uid cart
          (cart.items.filter (fun it => decide (it.product_id ≠ item.product_id))) hwf.1 h]
    · exact find?_user_updateCartItems db.carts uid cart
        (cart.items.filter (fun it => decide (it.product_id ≠ item.product_id))) hwf.1 h
    · intro hno
      rw [List.filter_eq_self]
      intro a ha
      simpa using hno a ha

/-- C8: `get_cart` is idempotent — for a user with no cart, the first call
persists a single empty cart for that user and returns it; an immediately
repeated call returns the same cart and leaves the store untouched, so
exactly one persisted cart exists for the user. -/
theorem getOrCreateCart_idempotent (db : DB) (uid : String)
    (h : findCart db uid = none) :
    (get_cart db uid).2.user_id = uid ∧ (get_cart db uid).2.items = [] ∧
    get_cart (get_cart db uid).1 uid = ((get_cart db uid).1, (get_cart db uid).2) ∧
    ((get_cart db uid).1.carts.filter (fun c => decide (c.user_id = uid))).length = 1 := by
  have hg : get_cart db uid =
      ({ db with
          carts := db.carts ++ [⟨db.nextId, uid, []⟩],
          nextId := db.nextId + 1 },
        (⟨db.nextId, uid, []⟩ : Cart)) := by
    unfold get_cart
    rw [h]
  have hf2 : findCart ({ db with
      carts := db.carts ++ [⟨db.nextId, uid, []⟩],
      nextId := db.nextId + 1 } : DB) uid = some ⟨db.nextId, uid, []⟩ := by
    show (db.carts ++ [(⟨db.nextId, uid, []⟩ : Cart)]).find?
      (fun c => decide (c.user_id = uid)) = some ⟨db.nextId, uid, []⟩
    rw [find?_append_none _ _ _ h]
    exact List.find?_cons_of_pos _ (by simp)
  refine ⟨by rw [hg], by rw [hg], ?_, ?_⟩
  · rw [hg]
    unfold get_cart
    rw [hf2]
  · rw [hg]
    show ((db.carts ++ [(⟨db.nextId, uid, []⟩ : Cart)]).filter
      (fun c => decide (c.user_id = uid))).length = 1
    rw [List.filter_append]
    have hnil : db.carts.filter (fun c => decide (c.user_id = uid)) = [] := by
      rw [List.filter_eq_nil_iff]
      intro c hc
      have := List.find?_eq_none.mp h c hc
      simpa using this
    rw [hnil]
    simp

/-- C9 counterexample: under the case-insensitive substring semantics the
spec defines for the free-text filter, the term `"red shoe"` does not
match the product tagged `"red-shoe-sale"` (the hyphens break the
substring match), so that product is in the catalogue yet absent from the
filtered listing — contradicting the claim's example. -/
theorem listProducts_redshoe_tag_cex :
    qMatches "red shoe" prodC = false ∧
    prodC ∈ dbCatalog.products ∧
    prodC ∉ list_products dbCatalog none (some "red shoe") none 50 := by
  refine ⟨by decide, by decide, by decide⟩

/-- C9 amended: a product passes the free-text filter `q` iff `q` occurs
case-insensitively as a substring of its title or of at least one tag;
`"red shoe"` matches the product titled `"Red Shoes"` and matches no
product with neither a matching title nor tag, but it does not match the
product tagged `"red-shoe-sale"` — that tag is matched by `"red-shoe"`
instead. -/
theorem listProducts_q_semantics (db : DB) (q : String) (p : Product) (limit : Nat)
    (hq : q ≠ "") (hlim : db.products.length ≤ limit) :
    (p ∈ list_products db none (some q) none limit ↔
      p ∈ db.products ∧ qMatches q p = true) ∧
    qMatches "red shoe" prodA = true ∧
    qMatches "red-shoe" prodC = true ∧
    qMatches "red shoe" prodD = false := by
  refine ⟨?_, by decide, by decide, by decide⟩
  unfold list_products
  rw [List.take_of_length_le (le_trans (List.length_filter_le _ _) hlim)]
  rw [List.mem_filter]
  unfold productQuery truthy
  simp [hq]

/-! Witnesses: each hypothesis-bearing claim theorem applied to concrete
store states. -/

/-- Witness for the C1 theorem at the concrete store `dbW`. -/
theorem checkout_total_status_witness :
    ∃ order : OrderDoc, dbW1.orders = dbW.orders ++ [order] ∧
      order.total = round2 ((order.items.map (fun i => i.price * (i.qty : Rat))).sum) ∧
      order.status = "paid" ∧
      resW = ⟨order._id, order.total, order.status⟩ :=
  checkout_total_status dbW "u" dbW1 resW (by decide)

/-- Witness for the C2 theorem at the stale-cart store `dbStale`. -/
theorem checkout_skips_missing_witness :
    ∃ db1 res order, checkout dbStale "u" = .ok (db1, res) ∧
      db1.orders = dbStale.orders ++ [order] ∧
      order.items = [(⟨pidA, 1⟩ : CartItem), ⟨pidB, 3⟩].filterMap (fun it =>
        (findProduct dbStale it.product_id).map
          (fun prod => ⟨it.product_id, it.qty, prod.price⟩)) :=
  checkout_skips_missing dbStale "u" ⟨0, "u", [⟨pidA, 1⟩, ⟨pidB, 3⟩]⟩
    (by decide) (by decide) (by decide)

/-- Witness for the C3 theorem at the empty store `dbEmpty`. -/
theorem checkout_empty_cart_rejected_witness :
    checkout dbEmpty "u" = .error .emptyCart :=
  checkout_empty_cart_rejected dbEmpty "u" (Or.inl (by decide))

/-- Witness for the amended C4 theorem at the ghost-product store. -/
theorem checkout_order_needs_nonempty_cart_witness :
    ∃ cart, findCart dbGhost "u" = some cart ∧ cart.items ≠ [] :=
  checkout_order_needs_nonempty_cart dbGhost "u" dbGhost1 ⟨1, 0, "paid"⟩ (by decide)

/-- Witness for the C5 theorem: three add requests, two for the same
product id. -/
theorem addItem_merge_invariant_witness :
    ∃ c : Cart, findCart (applyAdds dbCart0 "u" [("p1", 2), ("p2", 1), ("p1", 3)]) "u" = some c ∧
      (∀ pid, (c.items.filter (fun it => decide (it.product_id = pid))).length ≤ 1) ∧
      (∀ pid, qtyOf c.items pid = reqSum [("p1", 2), ("p2", 1), ("p1", 3)] pid) ∧
      (∀ pid, pid ∈ cartIds c.items ↔
        pid ∈ [("p1", 2), ("p2", 1), ("p1", 3)].map (fun r => r.1)) ∧
      (∀ (items : List CartItem) (pid : String) (q : Int), pid ∉ cartIds items →
        addItemToList items pid q = items ++ [⟨pid, q⟩]) :=
  addItem_merge_invariant dbCart0 "u" ⟨0, "u", []⟩ [("p1", 2), ("p2", 1), ("p1", 3)]
    (by decide) (by decide) rfl

/-- Witness for the C6 theorem at the concrete store `dbW`. -/
theorem checkout_clears_cart_witness :
    ∃ cart, findCart dbW "u" = some cart ∧
      findCart dbW1 "u" = some { cart with items := [] } :=
  checkout_clears_cart dbW "u" dbW1 resW (by decide) (by decide)

/-- Witness for the C7 theorem at the concrete store `dbW`. -/
theorem removeItem_spec_witness :
    (findCart dbW "u" = none → remove_from_cart dbW "u" ⟨pidA, 1⟩ = .error .cartNotFound) ∧
    (∀ cart, findCart dbW "u" = some cart →
      ∃ db1, remove_from_cart dbW "u" (⟨pidA, 1⟩ : CartItem) = .ok (db1, some { cart with
          items := cart.items.filter (fun it => decide (it.product_id ≠ pidA)) }) ∧
        findCart db1 "u" = some { cart with
          items := cart.items.filter (fun it => decide (it.product_id ≠ pidA)) } ∧
        ((∀ it2 ∈ cart.items, it2.product_id ≠ pidA) →
          cart.items.filter (fun it => decide (it.product_id ≠ pidA)) = cart.items)) :=
  removeItem_spec dbW "u" ⟨pidA, 1⟩ (by decide)

/-- Witness for the C8 theorem at the empty store `dbEmpty`. -/
theorem getOrCreateCart_idempotent_witness :
    (get_cart dbEmpty "u").2.user_id = "u" ∧ (get_cart dbEmpty "u").2.items = [] ∧
    get_cart (get_cart dbEmpty "u").1 "u" =
      ((get_cart dbEmpty "u").1, (get_cart dbEmpty "u").2) ∧
    ((get_cart dbEmpty "u").1.carts.filter (fun c => decide (c.user_id = "u"))).length = 1 :=
  getOrCreateCart_idempotent dbEmpty "u" (by decide)

/-- Witness for the amended C9 theorem at the concrete catalogue. -/
theorem listProducts_q_semantics_witness :
    (prodA ∈ list_products dbCatalog none (some "red shoe") none 50 ↔
      prodA ∈ dbCatalog.products ∧ qMatches "red shoe" prodA = true) ∧
    qMatches "red shoe" prodA = true ∧
    qMatches "red-shoe" prodC = true ∧
    qMatches "red shoe" prodD = false :=
  listProducts_q_semantics dbCatalog "red shoe" prodA 50 (by decide) (by decide)

/-- Witness for the C10 theorem at the malformed-id store `dbBadId`. -/
theorem checkout_invalid_id_aborts_witness :
    checkout dbBadId "u" = .error .invalidIdentifier :=
  checkout_invalid_id_aborts dbBadId "u" ⟨0, "u", [⟨"oops", 1⟩]⟩ (by decide) (by decide)

end Marketplace
